import Mathlib

/-!
A shallow embedding of `main.go` of gh-lol.

The program is glue around library calls (configuration, repository
resolution, prompts, REST and GraphQL clients, a table printer, a random
generator).  Every library call is modelled as an answer taken from a `World`
record, and every observable action is recorded as an `Event`.  A handler is a
function from the world and its arguments to the list of events it performs,
in order, together with its outcome.
-/

namespace GhLol

/-! ## Data model -/

/-- The two fields of `repository.Repository` that the program reads. -/
structure Repository where
  Owner : String
  Name : String
  deriving DecidableEq, Repr

/-- One element of `query.Repository.Issues.Nodes` in `runYell`. -/
structure Issue where
  Title : String
  Number : Int
  deriving DecidableEq, Repr

/-- One element of `response` in `runSpam`: `struct{ Number int }`. -/
structure IssueRef where
  Number : Int
  deriving DecidableEq, Repr

/-- A table cell handed to `tp.AddField`: its text and whether the `cyan`
colour function was attached with `tableprinter.WithColor`. -/
structure Field where
  text : String
  cyan : Bool
  deriving DecidableEq, Repr

/-- Which library call an error value came from. -/
inductive Lib where
  | config
  | parse
  | context
  | prompt
  | client
  | api
  | render
  | cobra
  deriving DecidableEq, Repr

/-- Error values of the program.  `lib` is an error returned by a library call
with its `Error()` text; the other constructors are the errors `main.go`
builds itself. -/
inductive Error where
  | lib (origin : Lib) (msg : String)
  | interactiveRequired
  | loudness (loud : Int)
  | noIssues (owner name : String)
  | wrap (context : String) (cause : Error)
  deriving DecidableEq, Repr

/-- The text of `err.Error()`. -/
def Error.message : Error → String
  | .lib _ msg => msg
  | .interactiveRequired => "--loud required when not running interactively"
  | .loudness loud => "expected a loudness of at least 1, got '" ++ toString loud ++ "'"
  | .noIssues owner name => "no issues to choose from in " ++ owner ++ "/" ++ name
  | .wrap context cause => context ++ ": " ++ cause.message

/-- Observable actions, in the order the program performs them. -/
inductive Event where
  | stdout (s : String)
  | stderr (s : String)
  | configRead
  | repositoryParse (s : String)
  | repositoryCurrent
  | isTerminalOutput
  | askOne (message default : String)
  | graphQLClient
  | query (first : Nat) (owner name : String)
  | render (isTTY : Bool) (width : Int) (rows : List (List Field))
  | restClient
  | get (path : String)
  | seed (t : Int)
  | intn (n : Nat)
  | post (path body : String)
  | patch (path body : String)
  deriving DecidableEq, Repr

/-- Equality of two `Except` values can be decided. -/
instance instDecidableEqExcept {ε α : Type} [DecidableEq ε] [DecidableEq α] :
    DecidableEq (Except ε α)
  | .ok a, .ok b => if h : a = b then isTrue (by rw [h]) else isFalse (fun h2 => h (by cases h2; rfl))
  | .error a, .error b =>
    if h : a = b then isTrue (by rw [h]) else isFalse (fun h2 => h (by cases h2; rfl))
  | .ok _, .error _ => isFalse (fun h => by cases h)
  | .error _, .ok _ => isFalse (fun h => by cases h)

/-- How a handler ends: it returns nil, returns an error, or panics. -/
inductive Outcome where
  | done
  | failed (e : Error)
  | panicked (msg : String)
  deriving DecidableEq, Repr

/-- The answers of everything outside `main.go`.  An `Except String _` or
`Option String` answer carries the text of the error the call returned. -/
structure World where
  /-- `config.Read()` -/
  configRead : Option String
  /-- the value `cfg.Get([]string{"supportive"})` yields, "" when it is unset -/
  supportive : String
  /-- wording of the error of `repository.Parse` on a given input -/
  parseErrorText : String → String
  /-- `repository.Current()` -/
  repositoryCurrent : Except String Repository
  /-- `term.FromEnv().IsTerminalOutput()` -/
  isTerminalOutput : Bool
  /-- first result of `terminal.Size()` -/
  termWidth : Int
  /-- answer of `survey.AskOne` into an `int` -/
  askLoud : Except String Int
  /-- answer of `survey.AskOne` into a `string` -/
  askComment : Except String String
  /-- error of `api.DefaultGraphQLClient()`, if any -/
  graphQLClient : Option String
  /-- `client.Query("Issues", &query, variables)` for an owner and a name -/
  query : String → String → Except String (List Issue)
  /-- `strings.ToUpper` -/
  toUpper : String → String
  /-- error of `tp.Render()`, if any -/
  render : Bool → Int → List (List Field) → Option String
  /-- error of `api.DefaultRESTClient()`, if any -/
  restClient : Option String
  /-- `client.Get(path, &response)` -/
  get : String → Except String (List IssueRef)
  /-- `time.Now().Unix()` -/
  now : Int
  /-- `rand.Intn(n)` after `rand.Seed(t)` -/
  intn : Int → Nat → Nat
  /-- `json.Marshal` of a `map[string]string`, given as its entries -/
  jsonMarshal : List (String × String) → String
  /-- error of `client.Post(path, body, nil)`, if any -/
  post : String → String → Option String
  /-- error of `client.Patch(path, body, nil)`, if any -/
  patch : String → String → Option String

/-! ## Repository resolution -/

/-- Modelled from the spec: `repository.Parse` belongs to the go-gh library and
is not under src/.  Section 4.1 of the spec: a non-empty override is parsed as
"OWNER/NAME" and fails with a `ParseError` if malformed (section 8: missing
"/", empty).  The string is cut at every "/"; exactly two non-empty pieces are
an owner and a name, anything else is the parse error. -/
def repositoryParse (w : World) (s : String) : Except Error Repository :=
  match s.data.splitOn '/' with
  | [owner, name] =>
    if owner = [] ∨ name = [] then .error (.lib .parse (w.parseErrorText s))
    else .ok ⟨String.mk owner, String.mk name⟩
  | _ => .error (.lib .parse (w.parseErrorText s))

/-- The closure assigned to `rootCmd.PersistentPreRunE` in `_main`
(lines 46-57), as a function of the captured `supportive` and `*repoOverride`;
it yields the value left in `repo` and the returned `err`. -/
def persistentPreRunE (w : World) (supportive repoOverride : String) :
    List Event × Except Error Repository :=
  let greeting : List Event :=
    if supportive = "enabled" then
      [.stdout "hey. you're doing great. take a break if you need to.\n"]
    else []
  if repoOverride ≠ "" then
    (greeting ++ [.repositoryParse repoOverride], repositoryParse w repoOverride)
  else
    (greeting ++ [.repositoryCurrent],
      match w.repositoryCurrent with
      | .ok repo => .ok repo
      | .error msg => .error (.lib .context msg))

/-! ## yell -/

/-- The loop `for x := 0; x < loud; x++ { title += "!" }`, by the number of
iterations left. -/
def addBangs (title : String) : Nat → String
  | 0 => title
  | k + 1 => addBangs (title ++ "!") k

/-- The row built for one issue in the second loop of `runYell`
(lines 141-149): `#<number>` in cyan, then the upper-cased title with the
bangs. -/
def yellRow (w : World) (loud : Int) (i : Issue) : List Field :=
  [⟨"#" ++ toString i.Number, true⟩, ⟨addBangs (w.toUpper i.Title) loud.toNat, false⟩]

/-- Lines 101-151 of `runYell`: everything after `loud` has been obtained. -/
def yellBody (w : World) (repo : Repository) (loud : Int) : List Event × Outcome :=
  if loud < 1 then ([], .failed (.loudness loud))
  else
    match w.graphQLClient with
    | some msg => ([.graphQLClient], .failed (.wrap "couldn't make client" (.lib .client msg)))
    | none =>
      match w.query repo.Owner repo.Name with
      | .error msg =>
        ([.graphQLClient, .query 25 repo.Owner repo.Name],
          .failed (.wrap "failed to call API" (.lib .api msg)))
      | .ok nodes =>
        let rows := nodes.map (yellRow w loud)
        ([.graphQLClient, .query 25 repo.Owner repo.Name]
            ++ nodes.map (fun i => .stdout (toString i.Number ++ " " ++ i.Title ++ "\n"))
            ++ [.isTerminalOutput, .render w.isTerminalOutput w.termWidth rows],
          match w.render w.isTerminalOutput w.termWidth rows with
          | none => .done
          | some msg => .failed (.lib .render msg))

/-- `runYell`; `loudFlag` is `none` when `--loud` was not given
(`!loudFlag.Changed`) and `some n` when it was given the value `n`. -/
def runYell (w : World) (repo : Repository) (loudFlag : Option Int) : List Event × Outcome :=
  match loudFlag with
  | none =>
    if !w.isTerminalOutput then ([.isTerminalOutput], .failed .interactiveRequired)
    else
      match w.askLoud with
      | .error msg => ([.isTerminalOutput, .askOne "How loud?" "1"], .failed (.lib .prompt msg))
      | .ok loud =>
        let r := yellBody w repo loud
        ([.isTerminalOutput, .askOne "How loud?" "1"] ++ r.1, r.2)
  | some loud => yellBody w repo loud

/-! ## spam -/

/-- The index expression `rand.Intn(len(response))` of line 191, for a
generator `intn`. -/
def choiceIndex (intn : Nat → Nat) (response : List IssueRef) : Nat :=
  intn response.length

/-- The path of the listing request of `runSpam` (line 175). -/
def issuesPath (repo : Repository) : String :=
  "repos/" ++ repo.Owner ++ "/" ++ repo.Name ++ "/issues?per_page=100"

/-- The path of the comment request of `runSpam` for issue `c` (line 193). -/
def commentsPath (repo : Repository) (c : Int) : String :=
  "repos/" ++ repo.Owner ++ "/" ++ repo.Name ++ "/issues/" ++ toString c ++ "/comments"

/-- The path of the closing request of `runSpam` for issue `c` (line 205). -/
def issuePath (repo : Repository) (c : Int) : String :=
  "repos/" ++ repo.Owner ++ "/" ++ repo.Name ++ "/issues/" ++ toString c

/-- Lines 170-219 of `runSpam`: everything after `message` has been
obtained. -/
def spamBody (w : World) (repo : Repository) (message : String) : List Event × Outcome :=
  match w.restClient with
  | some msg => ([.restClient], .failed (.wrap "couldn't create client" (.lib .client msg)))
  | none =>
    let path := issuesPath repo
    match w.get path with
    | .error msg => ([.restClient, .get path], .failed (.wrap "failed to get API" (.lib .api msg)))
    | .ok response =>
      if response.length = 0 then
        ([.restClient, .get path], .failed (.noIssues repo.Owner repo.Name))
      else
        let r := choiceIndex (w.intn w.now) response
        let drawn : List Event := [.restClient, .get path, .seed w.now, .intn response.length]
        match response[r]? with
        | none => (drawn, .panicked "index out of range")
        | some issue =>
          let choice := issue.Number
          let commentPath := commentsPath repo choice
          let commentBody := w.jsonMarshal [("body", message)]
          match w.post commentPath commentBody with
          | some msg =>
            (drawn ++ [.post commentPath commentBody],
              .failed (.wrap "failed to post API" (.lib .api msg)))
          | none =>
            let closePath := issuePath repo choice
            let closeBody := w.jsonMarshal [("state", "closed")]
            match w.patch closePath closeBody with
            | some msg =>
              (drawn ++ [.post commentPath commentBody, .patch closePath closeBody],
                .failed (.wrap "failed to patch API" (.lib .api msg)))
            | none =>
              (drawn ++ [.post commentPath commentBody, .patch closePath closeBody,
                  .stdout ("Closed #" ++ toString choice ++ " with '" ++ message ++ "'\n")],
                .done)

/-- `runSpam`; `args` are the positional arguments. -/
def runSpam (w : World) (repo : Repository) (args : List String) : List Event × Outcome :=
  match args with
  | message :: _ => spamBody w repo message
  | [] =>
    if !w.isTerminalOutput then ([.isTerminalOutput], .failed .interactiveRequired)
    else
      match w.askComment with
      | .error msg => ([.isTerminalOutput, .askOne "Comment" ""], .failed (.lib .prompt msg))
      | .ok message =>
        let r := spamBody w repo message
        ([.isTerminalOutput, .askOne "Comment" ""] ++ r.1, r.2)

/-! ## The command line and `main` -/

/-- What `rootCmd.Execute()` finds on the command line: one of the two
subcommands with the value of `--repo` ("" when absent), or anything cobra
settles itself (help, usage errors) with the error it returns, if any. -/
inductive CommandLine where
  | spam (repoOverride : String) (args : List String)
  | yell (repoOverride : String) (loudFlag : Option Int)
  | other (err : Option String)
  deriving DecidableEq, Repr

/-- `rootCmd.Execute()` for a subcommand: the inherited `PersistentPreRunE`
runs first and its error ends the run, then the subcommand's `RunE`.  What
cobra itself prints about a returned error is not recorded. -/
def execute (w : World) (repoOverride : String)
    (run : Repository → List Event × Outcome) : List Event × Outcome :=
  match persistentPreRunE w w.supportive repoOverride with
  | (pre, .error e) => (pre, .failed e)
  | (pre, .ok repo) =>
    let r := run repo
    (pre ++ r.1, r.2)

/-- `_main`. -/
def _main (w : World) (cl : CommandLine) : List Event × Outcome :=
  match w.configRead with
  | some msg => ([.configRead], .failed (.lib .config msg))
  | none =>
    let r :=
      match cl with
      | .spam repoOverride args => execute w repoOverride (fun repo => runSpam w repo args)
      | .yell repoOverride loudFlag => execute w repoOverride (fun repo => runYell w repo loudFlag)
      | .other none => ([], .done)
      | .other (some msg) => ([], .failed (.lib .cobra msg))
    (.configRead :: r.1, r.2)

/-- `main`: the events of the process and its exit status.  Returning from
`main` ends the process with status 0; a panic ends it with status 2 after the
runtime has reported it. -/
def main (w : World) (cl : CommandLine) : List Event × Nat :=
  match _main w cl with
  | (tr, .done) => (tr, 0)
  | (tr, .failed err) => (tr ++ [.stderr ("X " ++ err.message)], 0)
  | (tr, .panicked msg) => (tr ++ [.stderr ("panic: " ++ msg)], 2)

/-- The API client creations and API requests among the events of a run. -/
def requests (tr : List Event) : List Event :=
  tr.filter fun e =>
    match e with
    | .graphQLClient | .query _ _ _ | .restClient | .get _ | .post _ _ | .patch _ _ => true
    | _ => false

/-- The event is a prompt shown by `survey.AskOne`. -/
def isPrompt : Event → Bool
  | .askOne _ _ => true
  | _ => false

/-- The event belongs to the random selection (`rand.Seed`, `rand.Intn`). -/
def isDraw : Event → Bool
  | .seed _ => true
  | .intn _ => true
  | _ => false

/-- The event changes the remote repository (a POST or a PATCH). -/
def isWrite : Event → Bool
  | .post _ _ => true
  | .patch _ _ => true
  | _ => false

/-- The loudness `n` reached `runYell`: from the `--loud` flag, or from the
prompt shown on an interactive terminal. -/
def LoudnessInput (w : World) (loudFlag : Option Int) (n : Int) : Prop :=
  loudFlag = some n ∨ (loudFlag = none ∧ w.isTerminalOutput = true ∧ w.askLoud = .ok n)

/-- The message `m` reached `runSpam`: as the first positional argument, or
from the prompt shown on an interactive terminal. -/
def MessageInput (w : World) (args : List String) (m : String) : Prop :=
  (∃ rest, args = m :: rest) ∨ (args = [] ∧ w.isTerminalOutput = true ∧ w.askComment = .ok m)

/-- A sample world: no terminal, every call succeeds, two open issues, an
upper-casing of the ASCII letters, the generator always draws 0. -/
def sampleWorld : World where
  configRead := none
  supportive := ""
  parseErrorText := fun s => "cannot parse " ++ s
  repositoryCurrent := .ok ⟨"octo", "cat"⟩
  isTerminalOutput := false
  termWidth := 80
  askLoud := .ok 1
  askComment := .ok "lol"
  graphQLClient := none
  query := fun _ _ => .ok [⟨"Hello", 5⟩, ⟨"bye", 9⟩]
  toUpper := fun s => String.mk (s.data.map Char.toUpper)
  render := fun _ _ _ => none
  restClient := none
  get := fun _ => .ok [⟨5⟩, ⟨9⟩]
  now := 0
  intn := fun _ _ => 0
  jsonMarshal := fun kvs =>
    "\x7b" ++ String.intercalate "," (kvs.map fun kv => "\"" ++ kv.1 ++ "\":\"" ++ kv.2 ++ "\"") ++ "\x7d"
  post := fun _ _ => none
  patch := fun _ _ => none

/-- The sample world with a repository that has no open issue. -/
def emptyWorld : World := { sampleWorld with get := fun _ => .ok [] }

/-- The sample world with a PATCH that fails. -/
def patchFailsWorld : World := { sampleWorld with patch := fun _ _ => some "HTTP 403" }

/-! ## Helper lemmas -/

theorem addBangs_eq (k : Nat) (title : String) :
    addBangs title k = title ++ String.mk (List.replicate k '!') := by
  induction k generalizing title with
  | zero => simp [addBangs, String.ext_iff]
  | succ k ih =>
    rw [addBangs, ih]
    simp [String.ext_iff, List.replicate_succ]

theorem yellBody_loud_lt (w : World) (repo : Repository) (n : Int) (h : n < 1) :
    yellBody w repo n = ([], .failed (.loudness n)) := by
  simp [yellBody, h]

theorem yellBody_ok (w : World) (repo : Repository) (n : Int) (nodes : List Issue)
    (hn : 1 ≤ n) (hc : w.graphQLClient = none) (hq : w.query repo.Owner repo.Name = .ok nodes) :
    yellBody w repo n =
      ([.graphQLClient, .query 25 repo.Owner repo.Name]
          ++ nodes.map (fun i => .stdout (toString i.Number ++ " " ++ i.Title ++ "\n"))
          ++ [.isTerminalOutput,
              .render w.isTerminalOutput w.termWidth (nodes.map (yellRow w n))],
        match w.render w.isTerminalOutput w.termWidth (nodes.map (yellRow w n)) with
        | none => .done
        | some msg => .failed (.lib .render msg)) := by
  have h : ¬ n < 1 := by omega
  simp [yellBody, h, hc, hq]

theorem runYell_of_input (w : World) (repo : Repository) (loudFlag : Option Int) (n : Int)
    (h : LoudnessInput w loudFlag n) :
    ∃ pre, (∀ e ∈ pre, e = .isTerminalOutput ∨ e = .askOne "How loud?" "1") ∧
      runYell w repo loudFlag = (pre ++ (yellBody w repo n).1, (yellBody w repo n).2) := by
  rcases h with h | ⟨h1, h2, h3⟩
  · exact ⟨[], by simp, by simp [runYell, h]⟩
  · exact ⟨[.isTerminalOutput, .askOne "How loud?" "1"], by simp, by simp [runYell, h1, h2, h3]⟩

theorem runSpam_of_input (w : World) (repo : Repository) (args : List String) (m : String)
    (h : MessageInput w args m) :
    ∃ pre, (∀ e ∈ pre, e = .isTerminalOutput ∨ e = .askOne "Comment" "") ∧
      runSpam w repo args = (pre ++ (spamBody w repo m).1, (spamBody w repo m).2) := by
  rcases h with ⟨rest, h⟩ | ⟨h1, h2, h3⟩
  · exact ⟨[], by simp, by simp [runSpam, h]⟩
  · exact ⟨[.isTerminalOutput, .askOne "Comment" ""], by simp, by simp [runSpam, h1, h2, h3]⟩

theorem spamBody_get_error (w : World) (repo : Repository) (m msg : String)
    (hc : w.restClient = none) (hget : w.get (issuesPath repo) = .error msg) :
    spamBody w repo m =
      ([.restClient, .get (issuesPath repo)],
        .failed (.wrap "failed to get API" (.lib .api msg))) := by
  simp [spamBody, hc, hget]

theorem spamBody_empty (w : World) (repo : Repository) (m : String)
    (hc : w.restClient = none) (hget : w.get (issuesPath repo) = .ok []) :
    spamBody w repo m =
      ([.restClient, .get (issuesPath repo)], .failed (.noIssues repo.Owner repo.Name)) := by
  simp [spamBody, hc, hget]

theorem spamBody_selected (w : World) (repo : Repository) (m : String)
    (response : List IssueRef) (issue : IssueRef)
    (hc : w.restClient = none) (hget : w.get (issuesPath repo) = .ok response)
    (hsel : response[w.intn w.now response.length]? = some issue) :
    spamBody w repo m =
      match w.post (commentsPath repo issue.Number) (w.jsonMarshal [("body", m)]) with
      | some msg =>
        ([.restClient, .get (issuesPath repo), .seed w.now, .intn response.length,
            .post (commentsPath repo issue.Number) (w.jsonMarshal [("body", m)])],
          .failed (.wrap "failed to post API" (.lib .api msg)))
      | none =>
        match w.patch (issuePath repo issue.Number) (w.jsonMarshal [("state", "closed")]) with
        | some msg =>
          ([.restClient, .get (issuesPath repo), .seed w.now, .intn response.length,
              .post (commentsPath repo issue.Number) (w.jsonMarshal [("body", m)]),
              .patch (issuePath repo issue.Number) (w.jsonMarshal [("state", "closed")])],
            .failed (.wrap "failed to patch API" (.lib .api msg)))
        | none =>
          ([.restClient, .get (issuesPath repo), .seed w.now, .intn response.length,
              .post (commentsPath repo issue.Number) (w.jsonMarshal [("body", m)]),
              .patch (issuePath repo issue.Number) (w.jsonMarshal [("state", "closed")]),
              .stdout ("Closed #" ++ toString issue.Number ++ " with '" ++ m ++ "'\n")],
            .done) := by
  have hne : response.length ≠ 0 := by
    intro h0
    have : response = [] := List.length_eq_zero.mp h0
    subst this
    simp at hsel
  simp only [spamBody, hc, hget, hne, if_false, choiceIndex, hsel]
  cases w.post _ _ with
  | some msg => simp
  | none =>
    simp only []
    cases w.patch _ _ with
    | some msg => simp
    | none => simp

theorem requests_prompt (pre : List Event) (a b : String)
    (h : ∀ e ∈ pre, e = .isTerminalOutput ∨ e = .askOne a b) : requests pre = [] := by
  simp only [requests, List.filter_eq_nil_iff]
  intro e he
  rcases h e he with h | h <;> simp [h]

/-! ## yell: rendering and loudness -/

/-- C1: when the loudness `n ≥ 1` reached `runYell` and the client and the
query succeeded with the issues `nodes`, the run ends by rendering one table
whose rows are, in fetched order, one per issue: first field "#" followed by
the decimal of the number (in cyan), second field the upper-cased title
followed by exactly `n` characters '!'.  No other table is rendered. -/
theorem runYell_rows (w : World) (repo : Repository) (loudFlag : Option Int) (n : Int)
    (nodes : List Issue) (hn : 1 ≤ n) (hin : LoudnessInput w loudFlag n)
    (hc : w.graphQLClient = none) (hq : w.query repo.Owner repo.Name = .ok nodes) :
    ∃ k : Nat, (k : Int) = n ∧ ∃ pre : List Event,
      (∀ e ∈ pre, ∀ tty width rows, e ≠ .render tty width rows) ∧
      (runYell w repo loudFlag).1 = pre ++ [.render w.isTerminalOutput w.termWidth
        (nodes.map fun i => [⟨"#" ++ toString i.Number, true⟩,
          ⟨w.toUpper i.Title ++ String.mk (List.replicate k '!'), false⟩])] := by
  refine ⟨n.toNat, by omega, ?_⟩
  obtain ⟨pre, hpre, hrun⟩ := runYell_of_input w repo loudFlag n hin
  rw [hrun, yellBody_ok w repo n nodes hn hc hq]
  refine ⟨pre ++ ([.graphQLClient, .query 25 repo.Owner repo.Name]
      ++ nodes.map (fun i => .stdout (toString i.Number ++ " " ++ i.Title ++ "\n"))
      ++ [.isTerminalOutput]), ?_, ?_⟩
  · intro e he tty width rows heq
    subst heq
    simp only [List.mem_append, List.mem_map, List.mem_cons, List.mem_singleton] at he
    rcases he with he | (he | he) | he
    · rcases hpre _ he with h | h <;> cases h
    · simp at he
    · obtain ⟨i, _, hi⟩ := he
      cases hi
    · simp at he
  · have hrows : nodes.map (yellRow w n) = nodes.map fun i => [⟨"#" ++ toString i.Number, true⟩,
          ⟨w.toUpper i.Title ++ String.mk (List.replicate n.toNat '!'), false⟩] := by
      apply List.map_congr_left
      intro i _
      simp [yellRow, addBangs_eq]
    simp [hrows]

/-- The title "Hello" with loudness 3 is rendered as "HELLO!!!". -/
theorem runYell_rows_witness :
    (1 : Int) ≤ 3 ∧ LoudnessInput sampleWorld (some 3) 3 ∧
    (runYell sampleWorld ⟨"octo", "cat"⟩ (some 3)).1.getLast? =
      some (.render false 80
        [[⟨"#5", true⟩, ⟨"HELLO!!!", false⟩], [⟨"#9", true⟩, ⟨"BYE!!!", false⟩]]) ∧
    ∃ k : Nat, (k : Int) = 3 ∧ ∃ pre : List Event,
      (∀ e ∈ pre, ∀ tty width rows, e ≠ .render tty width rows) ∧
      (runYell sampleWorld ⟨"octo", "cat"⟩ (some 3)).1 =
        pre ++ [.render sampleWorld.isTerminalOutput sampleWorld.termWidth
          (([⟨"Hello", 5⟩, ⟨"bye", 9⟩] : List Issue).map fun i =>
            [⟨"#" ++ toString i.Number, true⟩,
              ⟨sampleWorld.toUpper i.Title ++ String.mk (List.replicate k '!'), false⟩])] :=
  ⟨by decide, Or.inl rfl, by decide,
    runYell_rows sampleWorld ⟨"octo", "cat"⟩ (some 3) 3 [⟨"Hello", 5⟩, ⟨"bye", 9⟩]
      (by decide) (Or.inl rfl) rfl rfl⟩

/-- C2: a loudness `n ≤ 0` from the flag or the prompt makes `runYell` return
the loudness error before any API client is created or query issued; a
loudness `n ≥ 1` raises no loudness error, and every table the run renders is
built from the fetched issues with `n` itself. -/
theorem runYell_loudness_validation (w : World) (repo : Repository) (loudFlag : Option Int)
    (n : Int) (hin : LoudnessInput w loudFlag n) :
    (n ≤ 0 → (runYell w repo loudFlag).2 = .failed (.loudness n) ∧
      requests (runYell w repo loudFlag).1 = []) ∧
    (1 ≤ n → (∀ m, (runYell w repo loudFlag).2 ≠ .failed (.loudness m)) ∧
      ∀ tty width rows, Event.render tty width rows ∈ (runYell w repo loudFlag).1 →
        ∃ nodes, w.query repo.Owner repo.Name = .ok nodes ∧ rows = nodes.map (yellRow w n)) := by
  obtain ⟨pre, hpre, hrun⟩ := runYell_of_input w repo loudFlag n hin
  have hreq : requests pre = [] := by
    simp only [requests, List.filter_eq_nil_iff]
    intro e he
    rcases hpre e he with h | h <;> simp [h]
  constructor
  · intro hn
    rw [hrun, yellBody_loud_lt w repo n (by omega)]
    simpa using hreq
  · intro hn
    have hlt : ¬ n < 1 := by omega
    rw [hrun]
    constructor
    · intro m
      simp only [yellBody, hlt, if_false]
      cases w.graphQLClient with
      | some msg => simp
      | none =>
        cases w.query repo.Owner repo.Name with
        | error msg => simp
        | ok nodes =>
          simp only []
          split <;> simp
    · intro tty width rows hmem
      simp only [List.mem_append] at hmem
      rcases hmem with hmem | hmem
      · rcases hpre _ hmem with h | h <;> cases h
      · simp only [yellBody, hlt, if_false] at hmem
        cases hc : w.graphQLClient with
        | some msg => simp [hc] at hmem
        | none =>
          cases hq : w.query repo.Owner repo.Name with
          | error msg => simp [hc, hq] at hmem
          | ok nodes =>
            refine ⟨nodes, rfl, ?_⟩
            simp [hc, hq] at hmem
            exact hmem.2.2

/-- Loudness 0 is refused without a request; loudness 3 is used as given. -/
theorem runYell_loudness_validation_witness :
    LoudnessInput sampleWorld (some 0) 0 ∧
    ((0 : Int) ≤ 0 ∧ (runYell sampleWorld ⟨"octo", "cat"⟩ (some 0)).2 = .failed (.loudness 0) ∧
      requests (runYell sampleWorld ⟨"octo", "cat"⟩ (some 0)).1 = []) ∧
    ((1 : Int) ≤ 3 ∧ ∀ m, (runYell sampleWorld ⟨"octo", "cat"⟩ (some 3)).2 ≠ .failed (.loudness m)) :=
  ⟨Or.inl rfl,
    ⟨by decide, (runYell_loudness_validation sampleWorld ⟨"octo", "cat"⟩ (some 0) 0
      (Or.inl rfl)).1 (by decide)⟩,
    ⟨by decide, ((runYell_loudness_validation sampleWorld ⟨"octo", "cat"⟩ (some 3) 3
      (Or.inl rfl)).2 (by decide)).1⟩⟩

/-! ## Input resolution -/

theorem yellBody_no_prompt (w : World) (repo : Repository) (n : Int) :
    ∀ e ∈ (yellBody w repo n).1, isPrompt e = false := by
  simp only [yellBody]
  repeat' split
  all_goals simp [isPrompt]
  all_goals
    rintro e (⟨i, _, rfl⟩ | rfl | rfl) <;> rfl

theorem spamBody_no_prompt (w : World) (repo : Repository) (m : String) :
    ∀ e ∈ (spamBody w repo m).1, isPrompt e = false := by
  simp only [spamBody]
  repeat' split
  all_goals simp [isPrompt]

/-- C3: without `--loud` (for `runYell`) or without a positional message (for
`runSpam`), a run whose output is not a terminal does nothing but look at the
terminal and fails with the interactive-required error: no prompt, no API
request.  When the value was supplied the run is the rest of the handler on
that very value, whatever the terminal is, and it shows no prompt. -/
theorem input_resolution (w : World) (repo : Repository) :
    (w.isTerminalOutput = false →
      runYell w repo none = ([.isTerminalOutput], .failed .interactiveRequired) ∧
      runSpam w repo [] = ([.isTerminalOutput], .failed .interactiveRequired)) ∧
    (∀ n : Int, runYell w repo (some n) = yellBody w repo n ∧
      ∀ e ∈ (runYell w repo (some n)).1, isPrompt e = false) ∧
    (∀ (m : String) (rest : List String), runSpam w repo (m :: rest) = spamBody w repo m ∧
      ∀ e ∈ (runSpam w repo (m :: rest)).1, isPrompt e = false) := by
  refine ⟨?_, ?_, ?_⟩
  · intro h
    simp [runYell, runSpam, h]
  · intro n
    exact ⟨rfl, yellBody_no_prompt w repo n⟩
  · intro m rest
    exact ⟨rfl, spamBody_no_prompt w repo m⟩

/-- Without a terminal, `yell` without `--loud` and `spam` without a message
fail at once. -/
theorem input_resolution_witness :
    sampleWorld.isTerminalOutput = false ∧
    runYell sampleWorld ⟨"octo", "cat"⟩ none =
      ([.isTerminalOutput], .failed .interactiveRequired) ∧
    runSpam sampleWorld ⟨"octo", "cat"⟩ [] =
      ([.isTerminalOutput], .failed .interactiveRequired) :=
  ⟨rfl, (input_resolution sampleWorld ⟨"octo", "cat"⟩).1 rfl⟩

/-! ## spam -/

/-- C4: when the message `m` reached `runSpam`, the client was created, the
listing returned a non-empty `response`, the generator kept to its range and
the POST and the PATCH succeeded, the run returns nil and its API traffic is
exactly: the client creation, the GET, one POST of `json.Marshal` of the map
with the single entry "body" ↦ `m` to `repos/<owner>/<name>/issues/<c>/comments`,
then one PATCH of `json.Marshal` of "state" ↦ "closed" to
`repos/<owner>/<name>/issues/<c>`, with the same `c`, the number of an issue
of `response`. -/
theorem runSpam_end_to_end (w : World) (repo : Repository) (args : List String) (m : String)
    (response : List IssueRef) (hin : MessageInput w args m) (hc : w.restClient = none)
    (hget : w.get (issuesPath repo) = .ok response) (hne : response ≠ [])
    (hdraw : ∀ k, 0 < k → w.intn w.now k < k)
    (hpost : ∀ path body, w.post path body = none)
    (hpatch : ∀ path body, w.patch path body = none) :
    ∃ c : Int, (∃ issue ∈ response, issue.Number = c) ∧
      (runSpam w repo args).2 = .done ∧
      requests (runSpam w repo args).1 =
        [.restClient, .get ("repos/" ++ repo.Owner ++ "/" ++ repo.Name ++ "/issues?per_page=100"),
          .post ("repos/" ++ repo.Owner ++ "/" ++ repo.Name ++ "/issues/" ++ toString c
            ++ "/comments") (w.jsonMarshal [("body", m)]),
          .patch ("repos/" ++ repo.Owner ++ "/" ++ repo.Name ++ "/issues/" ++ toString c)
            (w.jsonMarshal [("state", "closed")])] := by
  obtain ⟨pre, hpre, hrun⟩ := runSpam_of_input w repo args m hin
  have hdraw := hdraw response.length (List.length_pos.mpr hne)
  have hsel : response[w.intn w.now response.length]? =
      some (response.get ⟨w.intn w.now response.length, hdraw⟩) := by
    simp [List.getElem?_eq_getElem hdraw]
  refine ⟨(response.get ⟨w.intn w.now response.length, hdraw⟩).Number,
    ⟨_, List.get_mem _ _ _, rfl⟩, ?_⟩
  rw [hrun, spamBody_selected w repo m response _ hc hget hsel, hpost, hpatch]
  refine ⟨rfl, ?_⟩
  have hreq := requests_prompt pre _ _ hpre
  simp only [requests] at hreq
  simp [requests, List.filter_append, hreq, issuesPath, commentsPath, issuePath]

/-- Repository octo/cat, fetched issues 5 and 9, message "hi": the comment
"hi" is posted to issue 5 and issue 5 is closed. -/
theorem runSpam_end_to_end_witness :
    MessageInput sampleWorld ["hi"] "hi" ∧
    sampleWorld.get (issuesPath ⟨"octo", "cat"⟩) = .ok [⟨5⟩, ⟨9⟩] ∧
    requests (runSpam sampleWorld ⟨"octo", "cat"⟩ ["hi"]).1 =
      [.restClient, .get "repos/octo/cat/issues?per_page=100",
        .post "repos/octo/cat/issues/5/comments" "\x7b\"body\":\"hi\"\x7d",
        .patch "repos/octo/cat/issues/5" "\x7b\"state\":\"closed\"\x7d"] ∧
    ∃ c : Int, (∃ issue ∈ ([⟨5⟩, ⟨9⟩] : List IssueRef), issue.Number = c) ∧
      (runSpam sampleWorld ⟨"octo", "cat"⟩ ["hi"]).2 = .done ∧
      requests (runSpam sampleWorld ⟨"octo", "cat"⟩ ["hi"]).1 =
        [.restClient, .get ("repos/" ++ "octo" ++ "/" ++ "cat" ++ "/issues?per_page=100"),
          .post ("repos/" ++ "octo" ++ "/" ++ "cat" ++ "/issues/" ++ toString c
            ++ "/comments") (sampleWorld.jsonMarshal [("body", "hi")]),
          .patch ("repos/" ++ "octo" ++ "/" ++ "cat" ++ "/issues/" ++ toString c)
            (sampleWorld.jsonMarshal [("state", "closed")])] :=
  ⟨Or.inl ⟨[], rfl⟩, rfl, by decide,
    runSpam_end_to_end sampleWorld ⟨"octo", "cat"⟩ ["hi"] "hi" [⟨5⟩, ⟨9⟩] (Or.inl ⟨[], rfl⟩)
      rfl rfl (by decide) (fun _ h => h) (fun _ _ => rfl) (fun _ _ => rfl)⟩

/-- C5: when the GET of `repos/<owner>/<name>/issues?per_page=100` answers
with the empty list, a run of `runSpam` makes no random selection, does not
panic, issues neither the POST nor the PATCH, and, once it has issued the GET,
fails with the no-issues error. -/
theorem runSpam_no_issues (w : World) (repo : Repository) (args : List String)
    (hget : w.get ("repos/" ++ repo.Owner ++ "/" ++ repo.Name ++ "/issues?per_page=100")
      = .ok []) :
    (runSpam w repo args).1.filter isDraw = [] ∧
    (runSpam w repo args).1.filter isWrite = [] ∧
    (∀ msg, (runSpam w repo args).2 ≠ .panicked msg) ∧
    (Event.get ("repos/" ++ repo.Owner ++ "/" ++ repo.Name ++ "/issues?per_page=100")
        ∈ (runSpam w repo args).1 →
      (runSpam w repo args).2 = .failed (.noIssues repo.Owner repo.Name)) := by
  have hget2 : w.get (issuesPath repo) = .ok [] := hget
  have hbody : ∀ m, (spamBody w repo m).1.filter isDraw = [] ∧
      (spamBody w repo m).1.filter isWrite = [] ∧
      (∀ msg, (spamBody w repo m).2 ≠ .panicked msg) ∧
      (Event.get (issuesPath repo) ∈ (spamBody w repo m).1 →
        (spamBody w repo m).2 = .failed (.noIssues repo.Owner repo.Name)) := by
    intro m
    cases hc : w.restClient with
    | some msg => simp [spamBody, hc, isDraw, isWrite]
    | none => simp [spamBody_empty w repo m hc hget2, isDraw, isWrite]
  show _ ∧ _ ∧ _ ∧ (Event.get (issuesPath repo) ∈ _ → _)
  cases args with
  | cons m rest => exact hbody m
  | nil =>
    cases ht : w.isTerminalOutput with
    | false => simp [runSpam, ht, isDraw, isWrite]
    | true =>
      cases ha : w.askComment with
      | error msg => simp [runSpam, ht, ha, isDraw, isWrite]
      | ok m =>
        obtain ⟨h1, h2, h3, h4⟩ := hbody m
        simp only [runSpam, ht, ha]
        refine ⟨?_, ?_, h3, ?_⟩
        · simpa [isDraw] using h1
        · simpa [isWrite] using h2
        · intro hmem
          apply h4
          simpa using hmem

/-- A repository without open issues: after the GET the run fails, nothing is
drawn, posted or patched. -/
theorem runSpam_no_issues_witness :
    emptyWorld.get ("repos/" ++ "octo" ++ "/" ++ "cat" ++ "/issues?per_page=100") = .ok [] ∧
    runSpam emptyWorld ⟨"octo", "cat"⟩ ["hi"] =
      ([.restClient, .get "repos/octo/cat/issues?per_page=100"],
        .failed (.noIssues "octo" "cat")) ∧
    (runSpam emptyWorld ⟨"octo", "cat"⟩ ["hi"]).1.filter isDraw = [] ∧
    (runSpam emptyWorld ⟨"octo", "cat"⟩ ["hi"]).1.filter isWrite = [] :=
  ⟨rfl, by decide,
    (runSpam_no_issues emptyWorld ⟨"octo", "cat"⟩ ["hi"] rfl).1,
    (runSpam_no_issues emptyWorld ⟨"octo", "cat"⟩ ["hi"] rfl).2.1⟩

/-- C6: the first failing step of `runSpam` ends the run with an error and
nothing after it is executed.  A failed message resolution issues no API call
at all; a failed GET is followed by no selection, POST or PATCH; a failed POST
by no PATCH; and when the PATCH fails after the POST succeeded the run still
returns an error, its API traffic being exactly the client creation, the GET,
the POST and the PATCH, each once: nothing is retried and nothing undoes the
posted comment. -/
theorem runSpam_abort (w : World) (repo : Repository) (args : List String) :
    (args = [] → (w.isTerminalOutput = false ∨ ∃ msg, w.askComment = .error msg) →
      (∃ e, (runSpam w repo args).2 = .failed e) ∧ requests (runSpam w repo args).1 = [] ∧
      (runSpam w repo args).1.filter isDraw = []) ∧
    (∀ m, MessageInput w args m → w.restClient = none →
      (∀ msg, w.get (issuesPath repo) = .error msg →
        (runSpam w repo args).2 = .failed (.wrap "failed to get API" (.lib .api msg)) ∧
        requests (runSpam w repo args).1 = [.restClient, .get (issuesPath repo)] ∧
        (runSpam w repo args).1.filter isDraw = []) ∧
      (∀ response issue, w.get (issuesPath repo) = .ok response →
        response[w.intn w.now response.length]? = some issue →
        (∀ msg, w.post (commentsPath repo issue.Number) (w.jsonMarshal [("body", m)])
            = some msg →
          (runSpam w repo args).2 = .failed (.wrap "failed to post API" (.lib .api msg)) ∧
          requests (runSpam w repo args).1 =
            [.restClient, .get (issuesPath repo),
              .post (commentsPath repo issue.Number) (w.jsonMarshal [("body", m)])]) ∧
        (∀ msg, w.post (commentsPath repo issue.Number) (w.jsonMarshal [("body", m)]) = none →
          w.patch (issuePath repo issue.Number) (w.jsonMarshal [("state", "closed")])
            = some msg →
          (runSpam w repo args).2 = .failed (.wrap "failed to patch API" (.lib .api msg)) ∧
          requests (runSpam w repo args).1 =
            [.restClient, .get (issuesPath repo),
              .post (commentsPath repo issue.Number) (w.jsonMarshal [("body", m)]),
              .patch (issuePath repo issue.Number) (w.jsonMarshal [("state", "closed")])]))) := by
  constructor
  · rintro rfl (ht | ⟨msg, ha⟩)
    · simp [runSpam, ht, requests, isDraw]
    · cases ht : w.isTerminalOutput <;> simp [runSpam, ht, ha, requests, isDraw]
  · intro m hin hc
    obtain ⟨pre, hpre, hrun⟩ := runSpam_of_input w repo args m hin
    have hreq := requests_prompt pre _ _ hpre
    have hdraw : pre.filter isDraw = [] := by
      simp only [List.filter_eq_nil_iff]
      intro e he
      rcases hpre e he with h | h <;> simp [h, isDraw]
    simp only [requests] at hreq
    rw [hrun]
    constructor
    · intro msg hget
      rw [spamBody_get_error w repo m msg hc hget]
      simp [requests, List.filter_append, hreq, hdraw, isDraw]
    · intro response issue hget hsel
      rw [spamBody_selected w repo m response issue hc hget hsel]
      constructor
      · intro msg hpost
        rw [hpost]
        simp [requests, List.filter_append, hreq]
      · intro msg hpost hpatch
        rw [hpost, hpatch]
        simp [requests, List.filter_append, hreq]

/-- The PATCH fails after the comment "hi" was posted to issue 5: the run
returns the error, the POST stays in the trace and nothing follows the
PATCH. -/
theorem runSpam_abort_witness :
    MessageInput patchFailsWorld ["hi"] "hi" ∧
    runSpam patchFailsWorld ⟨"octo", "cat"⟩ ["hi"] =
      ([.restClient, .get "repos/octo/cat/issues?per_page=100", .seed 0, .intn 2,
          .post "repos/octo/cat/issues/5/comments" "\x7b\"body\":\"hi\"\x7d",
          .patch "repos/octo/cat/issues/5" "\x7b\"state\":\"closed\"\x7d"],
        .failed (.wrap "failed to patch API" (.lib .api "HTTP 403"))) ∧
    (runSpam patchFailsWorld ⟨"octo", "cat"⟩ ["hi"]).2 =
      .failed (.wrap "failed to patch API" (.lib .api "HTTP 403")) ∧
    requests (runSpam patchFailsWorld ⟨"octo", "cat"⟩ ["hi"]).1 =
      [.restClient, .get (issuesPath ⟨"octo", "cat"⟩),
        .post (commentsPath ⟨"octo", "cat"⟩ 5) (patchFailsWorld.jsonMarshal [("body", "hi")]),
        .patch (issuePath ⟨"octo", "cat"⟩ 5)
          (patchFailsWorld.jsonMarshal [("state", "closed")])] :=
  ⟨Or.inl ⟨[], rfl⟩, by decide,
    (((runSpam_abort patchFailsWorld ⟨"octo", "cat"⟩ ["hi"]).2 "hi" (Or.inl ⟨[], rfl⟩) rfl).2
      [⟨5⟩, ⟨9⟩] ⟨5⟩ rfl rfl).2 "HTTP 403" rfl rfl⟩

/-- C9: for a fetched list of size `k ≥ 1`, `runSpam` asks the generator for
a draw below `k` and the issue it comments on is the element at the drawn
index `r`; so every position of the list is selected by exactly one value of
the draw in `[0, k)`, and of the `k` equally likely draws exactly one selects
a given position: probability `1 / k`. -/
theorem runSpam_selection_uniform (w : World) (repo : Repository) (args : List String)
    (m : String) (response : List IssueRef) (hin : MessageInput w args m)
    (hc : w.restClient = none) (hget : w.get (issuesPath repo) = .ok response)
    (hne : response ≠ []) :
    Event.intn response.length ∈ (runSpam w repo args).1 ∧
    (∀ (r : Nat) (hr : r < response.length), w.intn w.now response.length = r →
      choiceIndex (w.intn w.now) response = r ∧
      Event.post (commentsPath repo (response.get ⟨r, hr⟩).Number) (w.jsonMarshal [("body", m)])
        ∈ (runSpam w repo args).1) ∧
    (∀ i, i < response.length →
      ∃! r, r < response.length ∧
        ∀ g : Nat → Nat, g response.length = r → choiceIndex g response = i) ∧
    (∀ i, i < response.length →
      (((Finset.range response.length).filter
          (fun r => choiceIndex (fun _ => r) response = i)).card : ℚ) / response.length
        = 1 / response.length) := by
  obtain ⟨pre, hpre, hrun⟩ := runSpam_of_input w repo args m hin
  have hlen : response.length ≠ 0 := fun h => hne (List.length_eq_zero.mp h)
  refine ⟨?_, ?_, ?_, ?_⟩
  · rw [hrun]
    simp only [spamBody, hc, hget, hlen, if_false]
    repeat' split
    all_goals simp
  · intro r hr hdraw
    refine ⟨hdraw, ?_⟩
    have hsel : response[w.intn w.now response.length]? = some (response.get ⟨r, hr⟩) := by
      rw [hdraw]
      simp [List.getElem?_eq_getElem hr]
    rw [hrun, spamBody_selected w repo m response _ hc hget hsel]
    repeat' split
    all_goals simp
  · intro i hi
    refine ⟨i, ⟨hi, fun g hg => hg⟩, ?_⟩
    rintro r ⟨_, hr⟩
    exact hr (fun _ => r) rfl
  · intro i hi
    have hfilter : (Finset.range response.length).filter
        (fun r => choiceIndex (fun _ => r) response = i) = {i} := by
      ext r
      simp only [choiceIndex, Finset.mem_filter, Finset.mem_range, Finset.mem_singleton]
      constructor
      · exact fun h => h.2
      · rintro rfl
        exact ⟨hi, rfl⟩
    rw [hfilter]
    simp

/-- Fetched issues 5 and 9 and a draw of 0: the comment goes to issue 5, the
element at index 0. -/
theorem runSpam_selection_uniform_witness :
    MessageInput sampleWorld ["hi"] "hi" ∧
    sampleWorld.intn sampleWorld.now 2 = 0 ∧
    Event.intn 2 ∈ (runSpam sampleWorld ⟨"octo", "cat"⟩ ["hi"]).1 ∧
    Event.post (commentsPath ⟨"octo", "cat"⟩ 5) (sampleWorld.jsonMarshal [("body", "hi")])
      ∈ (runSpam sampleWorld ⟨"octo", "cat"⟩ ["hi"]).1 :=
  ⟨Or.inl ⟨[], rfl⟩, rfl,
    (runSpam_selection_uniform sampleWorld ⟨"octo", "cat"⟩ ["hi"] "hi" [⟨5⟩, ⟨9⟩]
      (Or.inl ⟨[], rfl⟩) rfl rfl (by decide)).1,
    ((runSpam_selection_uniform sampleWorld ⟨"octo", "cat"⟩ ["hi"] "hi" [⟨5⟩, ⟨9⟩]
      (Or.inl ⟨[], rfl⟩) rfl rfl (by decide)).2.1 0 (by decide) rfl).2⟩

/-! ## Repository resolution -/

theorem splitOn_no_slash (l : List Char) (h : '/' ∉ l) : l.splitOn '/' = [l] := by
  have hsplit : (['/'].intercalate [l]).splitOn '/' = [l] :=
    List.splitOn_intercalate [l] '/' (by simpa using h) (by simp)
  simpa [List.intercalate] using hsplit

theorem splitOn_owner_name (o n : List Char) (ho : '/' ∉ o) (hn : '/' ∉ n) :
    (o ++ '/' :: n).splitOn '/' = [o, n] := by
  have hsplit : (['/'].intercalate [o, n]).splitOn '/' = [o, n] :=
    List.splitOn_intercalate [o, n] '/' (by simp [ho, hn]) (by simp)
  simpa [List.intercalate] using hsplit

theorem repositoryParse_no_slash (w : World) (s : String) (h : '/' ∉ s.data) :
    repositoryParse w s = .error (.lib .parse (w.parseErrorText s)) := by
  simp [repositoryParse, splitOn_no_slash s.data h]

theorem repositoryParse_owner_name (w : World) (owner name : String)
    (ho : owner ≠ "") (hn : name ≠ "") (hos : '/' ∉ owner.data) (hns : '/' ∉ name.data) :
    repositoryParse w (owner ++ "/" ++ name) = .ok ⟨owner, name⟩ := by
  have hsplit : (owner ++ "/" ++ name).data.splitOn '/' = [owner.data, name.data] := by
    have : (owner ++ "/" ++ name).data = owner.data ++ '/' :: name.data := by simp
    rw [this]
    exact splitOn_owner_name _ _ hos hns
  have ho2 : owner.data ≠ [] := fun h => ho (String.ext h)
  have hn2 : name.data ≠ [] := fun h => hn (String.ext h)
  simp only [repositoryParse, hsplit]
  simp [ho2, hn2]

/-- C7, as stated, fails on the empty override: with an ambient repository
octo/cat the resolution succeeds, and without one it fails with the error of
`repository.Current`, not with a parse error. -/
theorem resolve_empty_override_no_parse_error :
    (persistentPreRunE sampleWorld "" "").2 = .ok ⟨"octo", "cat"⟩ ∧
    (¬ ∃ msg, (persistentPreRunE sampleWorld "" "").2 = .error (.lib .parse msg)) ∧
    (persistentPreRunE { sampleWorld with repositoryCurrent := .error "not a repository" }
      "" "").2 = .error (.lib .context "not a repository") := by
  refine ⟨rfl, ?_, rfl⟩
  rintro ⟨msg, h⟩
  cases h

/-- C7, amended: a non-empty override without "/" makes the resolution fail
with the parse error, and the ambient context is not consulted; the empty
override is not parsed at all: the step returns what `repository.Current`
returns. -/
theorem resolve_malformed_override (w : World) (supportive s : String) :
    (s ≠ "" → '/' ∉ s.data →
      (persistentPreRunE w supportive s).2 = .error (.lib .parse (w.parseErrorText s)) ∧
      Event.repositoryParse s ∈ (persistentPreRunE w supportive s).1 ∧
      Event.repositoryCurrent ∉ (persistentPreRunE w supportive s).1) ∧
    ((persistentPreRunE w supportive "").2 =
        (match w.repositoryCurrent with
          | .ok repo => .ok repo
          | .error msg => .error (.lib .context msg)) ∧
      Event.repositoryCurrent ∈ (persistentPreRunE w supportive "").1 ∧
      ∀ t, Event.repositoryParse t ∉ (persistentPreRunE w supportive "").1) := by
  constructor
  · intro hs hslash
    simp only [persistentPreRunE, hs, ne_eq, not_false_eq_true, if_true]
    refine ⟨repositoryParse_no_slash w s hslash, by simp, ?_⟩
    split <;> simp
  · simp only [persistentPreRunE, ne_eq, not_true_eq_false, if_false]
    refine ⟨trivial, by simp, ?_⟩
    intro t
    split <;> simp

/-- The override "octocat" has no "/": the resolution fails with the parse
error. -/
theorem resolve_malformed_override_witness :
    "octocat" ≠ "" ∧ '/' ∉ "octocat".data ∧
    (persistentPreRunE sampleWorld "" "octocat").2 =
      .error (.lib .parse "cannot parse octocat") ∧
    Event.repositoryParse "octocat" ∈ (persistentPreRunE sampleWorld "" "octocat").1 ∧
    Event.repositoryCurrent ∉ (persistentPreRunE sampleWorld "" "octocat").1 :=
  ⟨by decide, by decide,
    (resolve_malformed_override sampleWorld "" "octocat").1 (by decide) (by decide)⟩

/-- C8: for an owner and a name that are non-empty and contain no "/", the
override "OWNER/NAME" resolves to exactly the pair (OWNER, NAME), by parsing
and without consulting the ambient context; for any override,
`repository.Current` is consulted exactly when the override is empty. -/
theorem resolve_valid_override (w : World) (supportive owner name : String)
    (ho : owner ≠ "") (hn : name ≠ "") (hos : '/' ∉ owner.data) (hns : '/' ∉ name.data) :
    (persistentPreRunE w supportive (owner ++ "/" ++ name)).2 = .ok ⟨owner, name⟩ ∧
    Event.repositoryCurrent ∉ (persistentPreRunE w supportive (owner ++ "/" ++ name)).1 ∧
    ∀ s, Event.repositoryCurrent ∈ (persistentPreRunE w supportive s).1 ↔ s = "" := by
  have hall : ∀ s, Event.repositoryCurrent ∈ (persistentPreRunE w supportive s).1 ↔ s = "" := by
    intro s
    by_cases hs : s = ""
    · subst hs
      simp [persistentPreRunE]
    · simp only [persistentPreRunE, hs, ne_eq, not_false_eq_true, if_true, iff_false]
      split <;> simp
  have hne : owner ++ "/" ++ name ≠ "" := by
    intro h
    have := congrArg String.data h
    simp at this
  refine ⟨?_, ?_, hall⟩
  · simp only [persistentPreRunE, hne, ne_eq, not_false_eq_true, if_true]
    exact repositoryParse_owner_name w owner name ho hn hos hns
  · rw [hall]
    exact hne

/-- The override "octo/cat" resolves to owner "octo" and name "cat". -/
theorem resolve_valid_override_witness :
    "octo" ≠ "" ∧ "cat" ≠ "" ∧ '/' ∉ "octo".data ∧ '/' ∉ "cat".data ∧
    (persistentPreRunE sampleWorld "" "octo/cat").2 = .ok ⟨"octo", "cat"⟩ ∧
    (persistentPreRunE sampleWorld "" ("octo" ++ "/" ++ "cat")).2 = .ok ⟨"octo", "cat"⟩ :=
  ⟨by decide, by decide, by decide, by decide, by decide,
    (resolve_valid_override sampleWorld "" "octo" "cat" (by decide) (by decide) (by decide)
      (by decide)).1⟩

/-! ## main -/

/-- C10: when `_main` returns an error `e`, `main` adds to what `_main` did
exactly one write to standard error, "X " followed by the message of `e`, and
the process ends with status 0, as on success; when `_main` returns nil,
`main` adds nothing and the status is 0. -/
theorem main_exit (w : World) (cl : CommandLine) (tr : List Event) :
    (∀ e, _main w cl = (tr, .failed e) →
      main w cl = (tr ++ [.stderr ("X " ++ e.message)], 0)) ∧
    (_main w cl = (tr, .done) → main w cl = (tr, 0)) := by
  constructor
  · intro e h
    simp [main, h]
  · intro h
    simp [main, h]

/-- Asking for `yell` without `--loud` and without a terminal prints the error
after "X " and exits with status 0. -/
theorem main_exit_witness :
    _main sampleWorld (.yell "octo/cat" none) =
      ([.configRead, .repositoryParse "octo/cat", .isTerminalOutput],
        .failed .interactiveRequired) ∧
    main sampleWorld (.yell "octo/cat" none) =
      ([.configRead, .repositoryParse "octo/cat", .isTerminalOutput] ++
        [.stderr ("X " ++ Error.interactiveRequired.message)], 0) ∧
    main sampleWorld (.yell "octo/cat" none) =
      ([.configRead, .repositoryParse "octo/cat", .isTerminalOutput,
        .stderr "X --loud required when not running interactively"], 0) :=
  ⟨by decide,
    (main_exit sampleWorld (.yell "octo/cat" none)
      [.configRead, .repositoryParse "octo/cat", .isTerminalOutput]).1 _ (by decide),
    by decide⟩

end GhLol
